import Mathlib

/-!
Verification development for the lime compiler front-end
(lexer → parser → AST → type-directed code generator).

The parser is embedded from src/Parser.py, the token/keyword tables from
src/Token.py, the scope chain from src/Environment.py and the code
generator from src/Compiler.py.  The lexer and the passive AST node
hierarchy live in repository files that are not available (Lexer.py,
AST.py); they are modelled from the specification (sections 2, 3 and 4.1)
and marked as such in their doc comments.

The external IR builder (llvmlite) is out of scope per the spec; it is
modelled as an instruction log plus an insertion point: emitting through
a builder that has no active basic block is the crash case (`none`), as
in the real backend.  Machine floats never participate in any computation
of the embedded code (only type dispatch does), so float payloads are
carried opaquely as `Float`.
-/

/-- Token kinds, from src/Token.py (class TokenType). -/
inductive TokenType where
  | EOF | ILLEGAL
  | IDENT | INT | FLOAT
  | PLUS | MINUS | ASTERISK | SLASH | POW | MODULUS
  | EQ
  | COLON | SEMICOLON | ARROW | LPAREN | RPAREN | LBRACE | RBRACE
  | LET | FN | RETURN
  | TYPE
deriving DecidableEq, Repr

/-- Python's `str` of a TokenType enum member, used in parser diagnostics. -/
def TokenType.pyStr : TokenType → String
  | .EOF => "TokenType.EOF"
  | .ILLEGAL => "TokenType.ILLEGAL"
  | .IDENT => "TokenType.IDENT"
  | .INT => "TokenType.INT"
  | .FLOAT => "TokenType.FLOAT"
  | .PLUS => "TokenType.PLUS"
  | .MINUS => "TokenType.MINUS"
  | .ASTERISK => "TokenType.ASTERISK"
  | .SLASH => "TokenType.SLASH"
  | .POW => "TokenType.POW"
  | .MODULUS => "TokenType.MODULUS"
  | .EQ => "TokenType.EQ"
  | .COLON => "TokenType.COLON"
  | .SEMICOLON => "TokenType.SEMICOLON"
  | .ARROW => "TokenType.ARROW"
  | .LPAREN => "TokenType.LPAREN"
  | .RPAREN => "TokenType.RPAREN"
  | .LBRACE => "TokenType.LBRACE"
  | .RBRACE => "TokenType.RBRACE"
  | .LET => "TokenType.LET"
  | .FN => "TokenType.FN"
  | .RETURN => "TokenType.RETURN"
  | .TYPE => "TokenType.TYPE"

/-- A lexical token, from src/Token.py (class Token).  The source also
carries `line_no` and `position`; no claim depends on positions, so they
are omitted from the embedding. -/
structure Token where
  type : TokenType
  literal : String
deriving DecidableEq, Repr

/-- Keyword table, from src/Token.py (KEYWORDS). -/
def KEYWORDS : List (String × TokenType) :=
  [("let", .LET), ("fn", .FN), ("return", .RETURN)]

/-- Alias keyword table, from src/Token.py (ALT_KEYWORDS). -/
def ALT_KEYWORDS : List (String × TokenType) :=
  [("lit", .LET), ("be", .EQ), ("rn", .SEMICOLON),
   ("bruh", .FN), ("pause", .RETURN), ("snek", .ARROW)]

/-- Type keyword spellings, from src/Token.py (TYPE_KEYWORDS). -/
def TYPE_KEYWORDS : List String := ["int", "float"]

/-- Identifier classification, from src/Token.py (lookup_ident). -/
def lookupIdent (ident : String) : TokenType :=
  match KEYWORDS.lookup ident with
  | some tt => tt
  | none =>
    match ALT_KEYWORDS.lookup ident with
    | some tt => tt
    | none =>
      if TYPE_KEYWORDS.contains ident then TokenType.TYPE
      else TokenType.IDENT

/-- The end-of-input token the exhausted token stream keeps producing. -/
def eofToken : Token := ⟨TokenType.EOF, ""⟩

/-- Modelled from the spec: src/Lexer.py is not available.  Spec section 4.1:
the lexer skips whitespace, classifies identifiers through `lookup_ident`,
recognizes integer and floating literals and the symbols
`+ - * / % ^ = : ; -> ( ) { }`, and reports an illegal token kind for
anything unrecognized.  The fuel argument only bounds the recursion; the
wrapper `tokenize` supplies enough for any input. -/
def lexTokens : Nat → List Char → List Token
  | 0, _ => [eofToken]
  | _, [] => [eofToken]
  | fuel + 1, c :: rest =>
    if c = ' ' ∨ c = '\t' ∨ c = '\n' ∨ c = '\r' then
      lexTokens fuel rest
    else if c.isAlpha ∨ c = '_' then
      let ident := (c :: rest.takeWhile (fun d => d.isAlpha ∨ d = '_')).asString
      ⟨lookupIdent ident, ident⟩ ::
        lexTokens fuel (rest.dropWhile (fun d => d.isAlpha ∨ d = '_'))
    else if c.isDigit then
      let ds := (c :: rest.takeWhile Char.isDigit).asString
      let rest1 := rest.dropWhile Char.isDigit
      match rest1 with
      | '.' :: rest2 =>
          let fs := (rest2.takeWhile Char.isDigit).asString
          ⟨TokenType.FLOAT, ds ++ "." ++ fs⟩ ::
            lexTokens fuel (rest2.dropWhile Char.isDigit)
      | _ => ⟨TokenType.INT, ds⟩ :: lexTokens fuel rest1
    else
      match c, rest with
      | '-', '>' :: rest2 => ⟨TokenType.ARROW, "->"⟩ :: lexTokens fuel rest2
      | '+', _ => ⟨TokenType.PLUS, "+"⟩ :: lexTokens fuel rest
      | '-', _ => ⟨TokenType.MINUS, "-"⟩ :: lexTokens fuel rest
      | '*', _ => ⟨TokenType.ASTERISK, "*"⟩ :: lexTokens fuel rest
      | '/', _ => ⟨TokenType.SLASH, "/"⟩ :: lexTokens fuel rest
      | '%', _ => ⟨TokenType.MODULUS, "%"⟩ :: lexTokens fuel rest
      | '^', _ => ⟨TokenType.POW, "^"⟩ :: lexTokens fuel rest
      | '=', _ => ⟨TokenType.EQ, "="⟩ :: lexTokens fuel rest
      | ':', _ => ⟨TokenType.COLON, ":"⟩ :: lexTokens fuel rest
      | ';', _ => ⟨TokenType.SEMICOLON, ";"⟩ :: lexTokens fuel rest
      | '(', _ => ⟨TokenType.LPAREN, "("⟩ :: lexTokens fuel rest
      | ')', _ => ⟨TokenType.RPAREN, ")"⟩ :: lexTokens fuel rest
      | '{', _ => ⟨TokenType.LBRACE, "\x7b"⟩ :: lexTokens fuel rest
      | '}', _ => ⟨TokenType.RBRACE, "\x7d"⟩ :: lexTokens fuel rest
      | _, _ => ⟨TokenType.ILLEGAL, String.mk [c]⟩ :: lexTokens fuel rest

/-- Modelled from the spec: whole-input tokenization (Lexer consumed wholesale,
producing a finite token sequence ending in EOF). -/
def tokenize (src : String) : List Token :=
  lexTokens (src.length + 1) src.toList

/-- Expression nodes, from the AST node hierarchy.  Modelled from the spec
(section 3) and from the constructor calls in src/Parser.py and the field
accesses in src/Compiler.py: AST.py itself is not available.  The parser can
leave an operand of an InfixExpression absent (its parse failed and the error
was recorded), hence the `Option` operands. -/
inductive Expression where
  | IntegerLiteral (value : Int)
  | FloatLiteral (value : Float)
  | BooleanLiteral (value : Bool)
  | IdentifierLiteral (value : String)
  | InfixExpression (leftNode : Option Expression) (operator : String)
      (rightNode : Option Expression)
  | CallExpression (function : String) (arguments : List Expression)

/-- Statement nodes, from the AST node hierarchy (modelled from the spec,
section 3, like `Expression`).  Fields that the parser may fill with a null
node are `Option`s. -/
inductive Statement where
  | ExpressionStatement (expr : Option Expression)
  | LetStatement (name : String) (valueType : String) (value : Option Expression)
  | AssignStatement (ident : String) (rightValue : Expression)
  | BlockStatement (statements : List Statement)
  | FunctionStatement (name : String) (returnType : String) (body : Statement)
  | ReturnStatement (returnValue : Option Expression)
  | IfStatement (condition : Expression) (consequence : Statement)
      (alternative : Option Statement)

/-- Whether a statement node is an IfStatement. -/
def Statement.isIfStatement : Statement → Bool
  | .IfStatement _ _ _ => true
  | _ => false

/-- Precedence levels, from src/Parser.py (class PrecedenceType); the enum
values P_LOWEST = 0 through P_INDEX = 8 are represented by their numbers. -/
def P_LOWEST : Nat := 0
def P_EQUALS : Nat := 1
def P_LESSGREATER : Nat := 2
def P_SUM : Nat := 3
def P_PRODUCT : Nat := 4
def P_EXPONENT : Nat := 5
def P_PREFIX : Nat := 6
def P_CALL : Nat := 7
def P_INDEX : Nat := 8

/-- Operator precedence table, from src/Parser.py (PRECEDENCES). -/
def PRECEDENCES : TokenType → Option Nat
  | .PLUS => some P_SUM
  | .MINUS => some P_SUM
  | .SLASH => some P_PRODUCT
  | .ASTERISK => some P_PRODUCT
  | .MODULUS => some P_PRODUCT
  | .POW => some P_EXPONENT
  | _ => none

/-- The keys of Parser.infix_parse_fns: the token kinds that have a
registered infix parse rule (each mapping to __parse_infix_expression). -/
def hasInfixFn : TokenType → Bool
  | .PLUS | .MINUS | .SLASH | .ASTERISK | .POW | .MODULUS => true
  | _ => false

/-- Parser state: current token, one-token lookahead, the unconsumed rest of
the token stream, and the accumulated diagnostics (src/Parser.py fields). -/
structure PState where
  tokens : List Token
  current : Token
  peek : Token
  errors : List String
deriving Repr

/-- Parser.__next_token: shift the lookahead; an exhausted stream keeps
yielding the EOF token. -/
def pNext (st : PState) : PState :=
  match st.tokens with
  | [] => { st with current := st.peek, peek := eofToken }
  | t :: ts => { st with current := st.peek, peek := t, tokens := ts }

/-- Parser.__init__: prime current and peek with two next-token steps. -/
def initParser (toks : List Token) : PState :=
  pNext (pNext { tokens := toks, current := eofToken, peek := eofToken, errors := [] })

/-- Parser.__current_token_is. -/
def currentTokenIs (st : PState) (tt : TokenType) : Bool := st.current.type = tt

/-- Parser.__peek_token_is. -/
def peekTokenIs (st : PState) (tt : TokenType) : Bool := st.peek.type = tt

/-- Parser.__peek_error. -/
def peekError (st : PState) (tt : TokenType) : PState :=
  { st with errors := st.errors ++
      ["Expected next token to be " ++ tt.pyStr ++ ", got "
        ++ st.peek.type.pyStr ++ " instead."] }

/-- Parser.__expect_peek: advance past an expected lookahead or record a
diagnostic. -/
def expectPeek (st : PState) (tt : TokenType) : Bool × PState :=
  if peekTokenIs st tt then (true, pNext st) else (false, peekError st tt)

/-- Parser.__current_precedence (P_LOWEST when the table has no entry). -/
def currentPrecedence (st : PState) : Nat :=
  (PRECEDENCES st.current.type).getD P_LOWEST

/-- Parser.__peek_precedence (P_LOWEST when the table has no entry). -/
def peekPrecedence (st : PState) : Nat :=
  (PRECEDENCES st.peek.type).getD P_LOWEST

/-- Parser.__no_prefix_parse_fn_error. -/
def noPrefixError (st : PState) (tt : TokenType) : PState :=
  { st with errors := st.errors ++
      ["No Prefix Parser Function for " ++ tt.pyStr ++ " found."] }

/-- Decimal value of a digit list. -/
def digitsToNat (cs : List Char) : Nat :=
  cs.foldl (fun n c => n * 10 + (c.toNat - 48)) 0

/-- Python's int() restricted to the digit strings the lexer produces
(Parser.__parse_int_literal's conversion). -/
def pyInt (s : String) : Option Int :=
  match s.toList with
  | [] => none
  | cs => if cs.all Char.isDigit then some (Int.ofNat (digitsToNat cs)) else none

/-- Python's float() restricted to the `digits.digits` strings the lexer
produces (Parser.__parse_float_literal's conversion); the numeric payload
is opaque to every claim. -/
def pyFloat (s : String) : Option Float :=
  match s.toList.splitOn '.' with
  | [a, b] =>
    if a.all Char.isDigit ∧ b.all Char.isDigit then
      some (Float.ofScientific (digitsToNat (a ++ b)) true b.length)
    else none
  | _ => none

mutual

/-- Parser.parse_program: parse top-level statements until EOF, skipping
null statement results (their errors are already recorded).  Every parser
function takes a fuel argument bounding its recursion; `none` means the
fuel ran out (never the case for the inputs used in this development). -/
def parseProgram : Nat → PState → Option (List Statement × PState)
  | 0, _ => none
  | fuel + 1, st =>
    if currentTokenIs st TokenType.EOF then some ([], st)
    else
      match parseStatement fuel st with
      | none => none
      | some (stmtOpt, st1) =>
        match parseProgram fuel (pNext st1) with
        | none => none
        | some (stmts, st2) =>
          match stmtOpt with
          | some stmt => some (stmt :: stmts, st2)
          | none => some (stmts, st2)

/-- Parser.__parse_statement: dispatch on the current token kind. -/
def parseStatement : Nat → PState → Option (Option Statement × PState)
  | 0, _ => none
  | fuel + 1, st =>
    match st.current.type with
    | .LET => parseLetStatement fuel st
    | .FN => parseFunctionStatement fuel st
    | .RETURN => parseReturnStatement fuel st
    | _ => parseExpressionStatement fuel st

/-- Parser.__parse_expression_statement. -/
def parseExpressionStatement : Nat → PState → Option (Option Statement × PState)
  | 0, _ => none
  | fuel + 1, st =>
    match parseExpression fuel P_LOWEST st with
    | none => none
    | some (expr, st1) =>
      let st2 := if peekTokenIs st1 TokenType.SEMICOLON then pNext st1 else st1
      some (some (Statement.ExpressionStatement expr), st2)

/-- Parser.__parse_let_statement: `let IDENT : TYPE = EXPR` then skip every
token up to the next semicolon or EOF. -/
def parseLetStatement : Nat → PState → Option (Option Statement × PState)
  | 0, _ => none
  | fuel + 1, st =>
    match expectPeek st TokenType.IDENT with
    | (false, st1) => some (none, st1)
    | (true, st1) =>
      let name := st1.current.literal
      match expectPeek st1 TokenType.COLON with
      | (false, st2) => some (none, st2)
      | (true, st2) =>
        match expectPeek st2 TokenType.TYPE with
        | (false, st3) => some (none, st3)
        | (true, st3) =>
          let valueType := st3.current.literal
          match expectPeek st3 TokenType.EQ with
          | (false, st4) => some (none, st4)
          | (true, st4) =>
            match parseExpression fuel P_LOWEST (pNext st4) with
            | none => none
            | some (value, st5) =>
              match skipToSemicolon fuel st5 with
              | none => none
              | some st6 =>
                some (some (Statement.LetStatement name valueType value), st6)

/-- The token-discarding loop at the end of Parser.__parse_let_statement:
advance while the current token is neither SEMICOLON nor EOF. -/
def skipToSemicolon : Nat → PState → Option PState
  | 0, _ => none
  | fuel + 1, st =>
    if ¬ currentTokenIs st TokenType.SEMICOLON ∧ ¬ currentTokenIs st TokenType.EOF
    then skipToSemicolon fuel (pNext st)
    else some st

/-- Parser.__parse_function_statement: `fn IDENT ( ) -> TYPE { BLOCK }`
(the parameter list is an unimplemented placeholder, always empty). -/
def parseFunctionStatement : Nat → PState → Option (Option Statement × PState)
  | 0, _ => none
  | fuel + 1, st =>
    match expectPeek st TokenType.IDENT with
    | (false, st1) => some (none, st1)
    | (true, st1) =>
      let name := st1.current.literal
      match expectPeek st1 TokenType.LPAREN with
      | (false, st2) => some (none, st2)
      | (true, st2) =>
        match expectPeek st2 TokenType.RPAREN with
        | (false, st3) => some (none, st3)
        | (true, st3) =>
          match expectPeek st3 TokenType.ARROW with
          | (false, st4) => some (none, st4)
          | (true, st4) =>
            match expectPeek st4 TokenType.TYPE with
            | (false, st5) => some (none, st5)
            | (true, st5) =>
              let returnType := st5.current.literal
              match expectPeek st5 TokenType.LBRACE with
              | (false, st6) => some (none, st6)
              | (true, st6) =>
                match parseBlockStatement fuel st6 with
                | none => none
                | some (body, st7) =>
                  some (some (Statement.FunctionStatement name returnType body), st7)

/-- Parser.__parse_return_statement: `return EXPR ;`. -/
def parseReturnStatement : Nat → PState → Option (Option Statement × PState)
  | 0, _ => none
  | fuel + 1, st =>
    match parseExpression fuel P_LOWEST (pNext st) with
    | none => none
    | some (value, st1) =>
      match expectPeek st1 TokenType.SEMICOLON with
      | (false, st2) => some (none, st2)
      | (true, st2) => some (some (Statement.ReturnStatement value), st2)

/-- Parser.__parse_block_statement: statements until RBRACE or EOF. -/
def parseBlockStatement : Nat → PState → Option (Statement × PState)
  | 0, _ => none
  | fuel + 1, st =>
    match parseBlockLoop fuel (pNext st) with
    | none => none
    | some (stmts, st1) => some (Statement.BlockStatement stmts, st1)

/-- The statement loop inside Parser.__parse_block_statement. -/
def parseBlockLoop : Nat → PState → Option (List Statement × PState)
  | 0, _ => none
  | fuel + 1, st =>
    if ¬ currentTokenIs st TokenType.RBRACE ∧ ¬ currentTokenIs st TokenType.EOF then
      match parseStatement fuel st with
      | none => none
      | some (stmtOpt, st1) =>
        match parseBlockLoop fuel (pNext st1) with
        | none => none
        | some (stmts, st2) =>
          match stmtOpt with
          | some stmt => some (stmt :: stmts, st2)
          | none => some (stmts, st2)
    else some ([], st)

/-- Parser.__parse_expression (precedence climbing): run the prefix rule of
the current token (IDENT, INT, FLOAT and LPAREN are the registered rules;
anything else records a missing-prefix-rule diagnostic and yields a null
expression), then enter the infix loop. -/
def parseExpression : Nat → Nat → PState → Option (Option Expression × PState)
  | 0, _, _ => none
  | fuel + 1, precedence, st =>
    match st.current.type with
    | .IDENT =>
        parseExpressionLoop fuel precedence
          (some (Expression.IdentifierLiteral st.current.literal)) st
    | .INT =>
        match pyInt st.current.literal with
        | some n =>
            parseExpressionLoop fuel precedence
              (some (Expression.IntegerLiteral n)) st
        | none =>
            parseExpressionLoop fuel precedence none
              { st with errors := st.errors ++
                  ["Could not parse '" ++ st.current.literal ++ " as an integer."] }
    | .FLOAT =>
        match pyFloat st.current.literal with
        | some f =>
            parseExpressionLoop fuel precedence
              (some (Expression.FloatLiteral f)) st
        | none =>
            parseExpressionLoop fuel precedence none
              { st with errors := st.errors ++
                  ["Could not parse '" ++ st.current.literal ++ "' as a float."] }
    | .LPAREN =>
        match parseGroupedExpression fuel st with
        | none => none
        | some (expr, st1) => parseExpressionLoop fuel precedence expr st1
    | tt => some (none, noPrefixError st tt)

/-- The infix loop of Parser.__parse_expression: consume infix operators
while the lookahead is not a semicolon and its precedence strictly exceeds
the threshold; a lookahead with no registered infix rule ends the loop. -/
def parseExpressionLoop :
    Nat → Nat → Option Expression → PState → Option (Option Expression × PState)
  | 0, _, _, _ => none
  | fuel + 1, precedence, leftExpr, st =>
    if ¬ peekTokenIs st TokenType.SEMICOLON ∧ precedence < peekPrecedence st then
      if ¬ hasInfixFn st.peek.type then some (leftExpr, st)
      else
        match parseInfixExpression fuel leftExpr (pNext st) with
        | none => none
        | some (newLeft, st1) =>
          parseExpressionLoop fuel precedence (some newLeft) st1
    else some (leftExpr, st)

/-- Parser.__parse_infix_expression. -/
def parseInfixExpression :
    Nat → Option Expression → PState → Option (Expression × PState)
  | 0, _, _ => none
  | fuel + 1, leftNode, st =>
    let operator := st.current.literal
    let precedence := currentPrecedence st
    match parseExpression fuel precedence (pNext st) with
    | none => none
    | some (rightNode, st1) =>
      some (Expression.InfixExpression leftNode operator rightNode, st1)

/-- Parser.__parse_grouped_expression: `( EXPR )` at LOWEST precedence. -/
def parseGroupedExpression :
    Nat → PState → Option (Option Expression × PState)
  | 0, _ => none
  | fuel + 1, st =>
    match parseExpression fuel P_LOWEST (pNext st) with
    | none => none
    | some (expr, st1) =>
      match expectPeek st1 TokenType.RPAREN with
      | (false, st2) => some (none, st2)
      | (true, st2) => some (expr, st2)

end

/-- End-to-end front end: tokenize the source (spec-modelled lexer) and run
`parse_program`, returning the statements and the parser's diagnostics. -/
def parseSource (src : String) : Option (List Statement × List String) :=
  match parseProgram 1000 (initParser (tokenize src)) with
  | none => none
  | some (stmts, st) => some (stmts, st.errors)

/-- IR types, the fragment of the external backend's type language the code
generator uses: Compiler.type_map maps 'int' to a 32-bit integer type,
'float' to the float type, 'bool' to a 1-bit integer type; global variables
have pointer type and functions a function type (spec section 6). -/
inductive IRType where
  | i32
  | i1
  | f32
  | pointer (pointee : IRType)
  | functionType (ret : IRType)
deriving DecidableEq, Repr

/-- `isinstance(t, ir.IntType)`: the integer types are i32 and i1. -/
def IRType.isIntType : Option IRType → Bool
  | some .i32 => true
  | some .i1 => true
  | _ => false

/-- `isinstance(t, ir.FloatType)`. -/
def IRType.isFloatType : Option IRType → Bool
  | some .f32 => true
  | _ => false

/-- IR values: typed constants, instruction results (numbered in emission
order), global variables and functions. -/
inductive IRValue where
  | constInt (ty : IRType) (value : Int)
  | constFloat (value : Float)
  | instr (id : Nat)
  | globalVar (name : String)
  | func (name : String)
deriving Repr

/-- The IR instructions the code generator emits through the external
builder (spec section 6).  `condBr` stands for the builder's structured
one-way/two-way branch entry. -/
inductive Instr where
  | alloca (ty : IRType)
  | store (value : IRValue) (ptr : IRValue)
  | load (ptr : IRValue)
  | add (l r : IRValue)
  | sub (l r : IRValue)
  | mul (l r : IRValue)
  | sdiv (l r : IRValue)
  | srem (l r : IRValue)
  | icmpSigned (op : String) (l r : IRValue)
  | fadd (l r : IRValue)
  | fsub (l r : IRValue)
  | fmul (l r : IRValue)
  | fdiv (l r : IRValue)
  | frem (l r : IRValue)
  | fcmpOrdered (op : String) (l r : IRValue)
  | call (callee : IRValue)
  | ret (value : IRValue)
  | condBr (test : IRValue)
deriving Repr

/-- Module-level items: the boolean global constants and declared
functions (each function opens one entry basic block). -/
inductive ModuleItem where
  | globalConst (name : String) (ty : IRType) (value : Int)
  | functionDecl (name : String) (ret : IRType) (entryBlock : String)
deriving Repr

/-- Environment, from src/Environment.py: a local map from name to a
(storage handle, type) pair plus an optional parent scope. -/
inductive Environment where
  | mk (records : List (String × IRValue × IRType)) (parent : Option Environment)

/-- The local record list. -/
def Environment.records : Environment → List (String × IRValue × IRType)
  | .mk recs _ => recs

/-- The parent link. -/
def Environment.parent : Environment → Option Environment
  | .mk _ p => p

/-- Python dict assignment on the record list: overwrite the binding if the
key is present, append it otherwise. -/
def setRecord (recs : List (String × IRValue × IRType)) (name : String)
    (v : IRValue × IRType) : List (String × IRValue × IRType) :=
  match recs with
  | [] => [(name, v)]
  | (k, w) :: rest =>
    if k = name then (name, v) :: rest else (k, w) :: setRecord rest name v

/-- Environment.define: insert or overwrite in the local map (the source
returns the value; the embedding returns the updated environment). -/
def Environment.define (e : Environment) (name : String) (value : IRValue)
    (ty : IRType) : Environment :=
  .mk (setRecord e.records name (value, ty)) e.parent

/-- Environment.__resolve: the local map first, then the parent chain
(a missing name with no parent is the not-found signal None). -/
def Environment.resolve : Environment → String → Option (IRValue × IRType)
  | .mk recs none, name => recs.lookup name
  | .mk recs (some p), name =>
    match recs.lookup name with
    | some v => some v
    | none => p.resolve name

/-- Environment.lookup delegates to __resolve. -/
def Environment.lookup (e : Environment) (name : String) :
    Option (IRValue × IRType) :=
  e.resolve name

/-- The insertion point: the basic block the builder appends into, or none
for a builder created without a block (emitting through it is the crash
case, as in the external backend). -/
structure Builder where
  block : Option String
deriving Repr

/-- Compiler state: the module items, the global log of emitted
instructions (id, block, instruction), the current insertion point, the
current environment, the diagnostics, and the id counter for instruction
results (Compiler.__init__ fields plus the builder log). -/
structure CompilerState where
  module : List ModuleItem
  instrs : List (Nat × String × Instr)
  builder : Builder
  env : Environment
  errors : List String
  nextId : Nat

/-- Emit one instruction at the current insertion point, yielding its
result value; a builder without an active block raises in the backend
(`none`). -/
def emitValue (i : Instr) (s : CompilerState) : Option (IRValue × CompilerState) :=
  match s.builder.block with
  | none => none
  | some b =>
    some (IRValue.instr s.nextId,
      { s with instrs := s.instrs ++ [(s.nextId, b, i)], nextId := s.nextId + 1 })

/-- Compiler.type_map ('int', 'float', 'bool'); an unknown name is a
KeyError in the source (`none`). -/
def typeMap : String → Option IRType
  | "int" => some .i32
  | "float" => some .f32
  | "bool" => some .i1
  | _ => none

/-- Compiler.__init__ plus __initialize_builtins: an empty module populated
with the boolean global constants, a builder with no block, and a global
environment binding 'true' and 'false' to the globals (whose handle type is
a pointer to i1, as a global variable's type is a pointer). -/
def newCompiler : CompilerState :=
  { module := [.globalConst "true" .i1 1, .globalConst "false" .i1 0]
    instrs := []
    builder := { block := none }
    env := ((Environment.mk [] none).define "true" (.globalVar "true")
              (.pointer .i1)).define "false" (.globalVar "false") (.pointer .i1)
    errors := []
    nextId := 0 }

/-- The integer-pairing match block of Compiler.__visit_infix_expression:
operator selection over the signed-integer instruction family, arithmetic
result type Int32 and comparison result type Bool1.  An emitting case
crashes in the backend when an operand value is None; the `^` case and an
unknown operator emit nothing and leave the value None with the arithmetic
type already set. -/
def intPairingOp (operator : String) (leftValue rightValue : Option IRValue)
    (s : CompilerState) :
    Option ((Option IRValue × Option IRType) × CompilerState) :=
  match operator with
  | "+" =>
    match leftValue, rightValue with
    | some l, some r =>
      (emitValue (.add l r) s).map (fun p => ((some p.1, some IRType.i32), p.2))
    | _, _ => none
  | "-" =>
    match leftValue, rightValue with
    | some l, some r =>
      (emitValue (.sub l r) s).map (fun p => ((some p.1, some IRType.i32), p.2))
    | _, _ => none
  | "*" =>
    match leftValue, rightValue with
    | some l, some r =>
      (emitValue (.mul l r) s).map (fun p => ((some p.1, some IRType.i32), p.2))
    | _, _ => none
  | "/" =>
    match leftValue, rightValue with
    | some l, some r =>
      (emitValue (.sdiv l r) s).map (fun p => ((some p.1, some IRType.i32), p.2))
    | _, _ => none
  | "%" =>
    match leftValue, rightValue with
    | some l, some r =>
      (emitValue (.srem l r) s).map (fun p => ((some p.1, some IRType.i32), p.2))
    | _, _ => none
  | "^" => some ((none, some IRType.i32), s)
  | "<" =>
    match leftValue, rightValue with
    | some l, some r =>
      (emitValue (.icmpSigned "<" l r) s).map (fun p => ((some p.1, some IRType.i1), p.2))
    | _, _ => none
  | "<=" =>
    match leftValue, rightValue with
    | some l, some r =>
      (emitValue (.icmpSigned "<=" l r) s).map (fun p => ((some p.1, some IRType.i1), p.2))
    | _, _ => none
  | ">" =>
    match leftValue, rightValue with
    | some l, some r =>
      (emitValue (.icmpSigned ">" l r) s).map (fun p => ((some p.1, some IRType.i1), p.2))
    | _, _ => none
  | ">=" =>
    match leftValue, rightValue with
    | some l, some r =>
      (emitValue (.icmpSigned ">=" l r) s).map (fun p => ((some p.1, some IRType.i1), p.2))
    | _, _ => none
  | "==" =>
    match leftValue, rightValue with
    | some l, some r =>
      (emitValue (.icmpSigned "==" l r) s).map (fun p => ((some p.1, some IRType.i1), p.2))
    | _, _ => none
  | "!=" =>
    match leftValue, rightValue with
    | some l, some r =>
      (emitValue (.icmpSigned "!=" l r) s).map (fun p => ((some p.1, some IRType.i1), p.2))
    | _, _ => none
  | _ => some ((none, some IRType.i32), s)

/-- The float-pairing match block of Compiler.__visit_infix_expression:
the floating instruction family with ordered floating comparisons (result
type Float32 for arithmetic, Bool1 for comparisons). -/
def floatPairingOp (operator : String) (leftValue rightValue : Option IRValue)
    (s : CompilerState) :
    Option ((Option IRValue × Option IRType) × CompilerState) :=
  match operator with
  | "+" =>
    match leftValue, rightValue with
    | some l, some r =>
      (emitValue (.fadd l r) s).map (fun p => ((some p.1, some IRType.f32), p.2))
    | _, _ => none
  | "-" =>
    match leftValue, rightValue with
    | some l, some r =>
      (emitValue (.fsub l r) s).map (fun p => ((some p.1, some IRType.f32), p.2))
    | _, _ => none
  | "*" =>
    match leftValue, rightValue with
    | some l, some r =>
      (emitValue (.fmul l r) s).map (fun p => ((some p.1, some IRType.f32), p.2))
    | _, _ => none
  | "/" =>
    match leftValue, rightValue with
    | some l, some r =>
      (emitValue (.fdiv l r) s).map (fun p => ((some p.1, some IRType.f32), p.2))
    | _, _ => none
  | "%" =>
    match leftValue, rightValue with
    | some l, some r =>
      (emitValue (.frem l r) s).map (fun p => ((some p.1, some IRType.f32), p.2))
    | _, _ => none
  | "^" => some ((none, some IRType.f32), s)
  | "<" =>
    match leftValue, rightValue with
    | some l, some r =>
      (emitValue (.fcmpOrdered "<" l r) s).map (fun p => ((some p.1, some IRType.i1), p.2))
    | _, _ => none
  | "<=" =>
    match leftValue, rightValue with
    | some l, some r =>
      (emitValue (.fcmpOrdered "<=" l r) s).map (fun p => ((some p.1, some IRType.i1), p.2))
    | _, _ => none
  | ">" =>
    match leftValue, rightValue with
    | some l, some r =>
      (emitValue (.fcmpOrdered ">" l r) s).map (fun p => ((some p.1, some IRType.i1), p.2))
    | _, _ => none
  | ">=" =>
    match leftValue, rightValue with
    | some l, some r =>
      (emitValue (.fcmpOrdered ">=" l r) s).map (fun p => ((some p.1, some IRType.i1), p.2))
    | _, _ => none
  | "==" =>
    match leftValue, rightValue with
    | some l, some r =>
      (emitValue (.fcmpOrdered "==" l r) s).map (fun p => ((some p.1, some IRType.i1), p.2))
    | _, _ => none
  | "!=" =>
    match leftValue, rightValue with
    | some l, some r =>
      (emitValue (.fcmpOrdered "!=" l r) s).map (fun p => ((some p.1, some IRType.i1), p.2))
    | _, _ => none
  | _ => some ((none, some IRType.f32), s)

/-- The operator dispatch of Compiler.__visit_infix_expression, after both
operands are resolved: two sequential type-pairing guards over the resolved
operand types (both integer, then both float), each selecting the matching
instruction family; a pairing no guard matches leaves value and type as
None. -/
def dispatchInfixOp (operator : String) (leftValue : Option IRValue)
    (leftType : Option IRType) (rightValue : Option IRValue)
    (rightType : Option IRType) (s : CompilerState) :
    Option ((Option IRValue × Option IRType) × CompilerState) :=
  match (if IRType.isIntType rightType ∧ IRType.isIntType leftType then
           intPairingOp operator leftValue rightValue s
         else some ((none, none), s)) with
  | none => none
  | some ((v1, t1), s1) =>
    if IRType.isFloatType rightType ∧ IRType.isFloatType leftType then
      floatPairingOp operator leftValue rightValue s1
    else some ((v1, t1), s1)

/-- Compiler.__resolve_value: literals become typed constants (integer
literals default to Int32, float literals to Float32, boolean literals to
Bool1), identifiers are looked up in the environment and loaded from their
storage handle (an unresolvable identifier raises, `none`), infix and call
expressions recurse into their generation routines.  The infix case is
Compiler.__visit_infix_expression: resolve the left operand, then the
right, then dispatch on the type pairing; a None operand node raises, so
the whole resolution crashes (`none`) whichever operand is absent. -/
def resolveValue : Expression → CompilerState →
    Option ((Option IRValue × Option IRType) × CompilerState)
  | .IntegerLiteral v, s => some ((some (.constInt .i32 v), some .i32), s)
  | .FloatLiteral v, s => some ((some (.constFloat v), some .f32), s)
  | .BooleanLiteral b, s =>
      some ((some (.constInt .i1 (if b then 1 else 0)), some .i1), s)
  | .IdentifierLiteral name, s =>
      match s.env.lookup name with
      | none => none
      | some (ptr, ty) =>
          match emitValue (.load ptr) s with
          | none => none
          | some (v, s1) => some ((some v, some ty), s1)
  | .InfixExpression none _ _, _ => none
  | .InfixExpression (some _) _ none, _ => none
  | .InfixExpression (some l) operator (some r), s =>
      match resolveValue l s with
      | none => none
      | some ((leftValue, leftType), s1) =>
        match resolveValue r s1 with
        | none => none
        | some ((rightValue, rightType), s2) =>
          dispatchInfixOp operator leftValue leftType rightValue rightType s2
  | .CallExpression fname _, s =>
      match s.env.lookup fname with
      | none => none
      | some (funcHandle, retType) =>
          match emitValue (.call funcHandle) s with
          | none => none
          | some (v, s1) => some ((some v, some retType), s1)

/-- Compiler.__visit_infix_expression as a named entry point: resolve both
operands left to right, then dispatch on the runtime type pairing. -/
def visitInfixExpression (leftNode : Option Expression) (operator : String)
    (rightNode : Option Expression) (s : CompilerState) :
    Option ((Option IRValue × Option IRType) × CompilerState) :=
  resolveValue (.InfixExpression leftNode operator rightNode) s

/-- Compiler.__visit_call_expression as a named entry point (the argument
list is never threaded through — parameter typing is unimplemented). -/
def visitCallExpression (fname : String) (s : CompilerState) :
    Option ((Option IRValue × Option IRType) × CompilerState) :=
  resolveValue (.CallExpression fname []) s

/-- Compiler.__visit_let_statement: resolve the initializer; when the
name's lookup finds nothing, allocate storage of the resolved type, store
the value and register (storage, type); when the lookup finds an existing
record, store into its handle.  A None initializer node, a None resolved
type at the alloca, or a None resolved value at the store raises in the
source (`none`). -/
def visitLetStatement (name : String) (_valueType : String)
    (value : Option Expression) (s : CompilerState) : Option CompilerState :=
  match value with
  | none => none
  | some v =>
    match resolveValue v s with
    | none => none
    | some ((value?, type?), s1) =>
      match s1.env.lookup name with
      | none =>
        match type? with
        | none => none
        | some ty =>
          match emitValue (.alloca ty) s1 with
          | none => none
          | some (ptr, s2) =>
            match value? with
            | none => none
            | some v0 =>
              match emitValue (.store v0 ptr) s2 with
              | none => none
              | some (_, s3) =>
                some { s3 with env := s3.env.define name ptr ty }
      | some (ptr, _) =>
        match value? with
        | none => none
        | some v0 =>
          match emitValue (.store v0 ptr) s1 with
          | none => none
          | some (_, s2) => some s2

/-- Compiler.__visit_assign_statement: resolve the right-hand side first;
an undeclared target records the undeclared-identifier diagnostic and
stores nothing, a declared one is stored into its existing handle. -/
def visitAssignStatement (name : String) (value : Expression)
    (s : CompilerState) : Option CompilerState :=
  match resolveValue value s with
  | none => none
  | some ((value?, _), s1) =>
    match s1.env.lookup name with
    | none =>
      some { s1 with errors := s1.errors ++
        ["COMPILE ERROR: Identifier " ++ name
          ++ " has not been declared before it was re-assigned"] }
    | some (ptr, _) =>
      match value? with
      | none => none
      | some v0 => (emitValue (.store v0 ptr) s1).map (·.2)

/-- Compiler.__visit_return_statement: resolve and emit a return. -/
def visitReturnStatement (value : Option Expression) (s : CompilerState) :
    Option CompilerState :=
  match value with
  | none => none
  | some v =>
    match resolveValue v s with
    | none => none
    | some ((value?, _), s1) =>
      match value? with
      | none => none
      | some v0 => (emitValue (.ret v0) s1).map (·.2)

mutual

/-- Compiler.compile, dispatching on the statement node kind; the
expression-statement case is Compiler.__visit_expression_statement (compile
of a literal or identifier expression hits no dispatch case and does
nothing; a None expression raises), the block case is
__visit_block_statement, the function case is __visit_function_statement
(declare the function and its entry block, swap in a fresh builder and a
fresh child environment, bind the function's own name, generate the body,
then restore the saved environment — rebinding the name there — and the
saved builder), and the if case is __visit_if_statement (resolve the
condition, emit the structured branch, generate the branch bodies). -/
def compileStmt : Statement → CompilerState → Option CompilerState
  | .ExpressionStatement none, _ => none
  | .ExpressionStatement (some (.InfixExpression l op r)), s =>
    (match visitInfixExpression l op r s with
     | none => none
     | some (_, s1) => some s1)
  | .ExpressionStatement (some (.CallExpression f _)), s =>
    (match visitCallExpression f s with
     | none => none
     | some (_, s1) => some s1)
  | .ExpressionStatement (some _), s => some s
  | .LetStatement name valueType value, s => visitLetStatement name valueType value s
  | .AssignStatement name value, s => visitAssignStatement name value s
  | .ReturnStatement value, s => visitReturnStatement value s
  | .BlockStatement stmts, s => compileStmtList stmts s
  | .FunctionStatement name returnType body, s =>
    match typeMap returnType with
    | none => none
    | some retTy =>
      let funcHandle := IRValue.func name
      let s1 := { s with module := s.module
                    ++ [ModuleItem.functionDecl name retTy (name ++ "_entry")] }
      let previousBuilder := s1.builder
      let s2 := { s1 with builder := { block := some (name ++ "_entry") } }
      let previousEnv := s2.env
      let s3 := { s2 with env :=
        (Environment.mk [] (some previousEnv)).define name funcHandle retTy }
      match compileStmt body s3 with
      | none => none
      | some s4 =>
        let s5 := { s4 with env := previousEnv.define name funcHandle retTy }
        some { s5 with builder := previousBuilder }
  | .IfStatement condition consequence none, s =>
    (match resolveValue condition s with
     | none => none
     | some ((none, _), _) => none
     | some ((some test, _), s1) =>
       match emitValue (.condBr test) s1 with
       | none => none
       | some (_, s2) => compileStmt consequence s2)
  | .IfStatement condition consequence (some alt), s =>
    (match resolveValue condition s with
     | none => none
     | some ((none, _), _) => none
     | some ((some test, _), s1) =>
       match emitValue (.condBr test) s1 with
       | none => none
       | some (_, s2) =>
         match compileStmt consequence s2 with
         | none => none
         | some s3 => compileStmt alt s3)

/-- Compiler.__visit_program / __visit_block_statement loops: compile the
statements in order. -/
def compileStmtList : List Statement → CompilerState → Option CompilerState
  | [], s => some s
  | stmt :: rest, s =>
    match compileStmt stmt s with
    | none => none
    | some s1 => compileStmtList rest s1

end

/-- Compiler.compile on a Program node (visit_program over its top-level
statements). -/
def compileProgram (stmts : List Statement) (s : CompilerState) :
    Option CompilerState :=
  compileStmtList stmts s

/-- Whether an instruction is a storage allocation. -/
def isAlloca : Instr → Bool
  | .alloca _ => true
  | _ => false

/-- The program `fn main() -> int { let a: int = 1; let a: int = 2;
return a; }`: the let/redefinition scenario of the claim, placed inside a
function so that the builder has an active block. -/
def exampleLetRedefinition : List Statement :=
  [.FunctionStatement "main" "int" (.BlockStatement
    [.LetStatement "a" "int" (some (.IntegerLiteral 1)),
     .LetStatement "a" "int" (some (.IntegerLiteral 2)),
     .ReturnStatement (some (.IdentifierLiteral "a"))])]

/-- A compiler state whose builder has an active block (as inside a
function's entry block), with the initial global environment. -/
def activeBuilderState : CompilerState :=
  { newCompiler with builder := { block := some "main_entry" } }

/-- The right-hand side `1 + 2` used as an assignment initializer. -/
def addOneTwo : Expression :=
  .InfixExpression (some (.IntegerLiteral 1)) "+" (some (.IntegerLiteral 2))

/-- The scope chain walk described by the spec: the list of local maps from
the current scope outward along parent links. -/
def Environment.scopes : Environment → List (List (String × IRValue × IRType))
  | .mk recs none => [recs]
  | .mk recs (some p) => recs :: p.scopes

/-- Emitting an instruction never touches the environment or the error
list. -/
theorem emitValue_env_errors {i : Instr} {s : CompilerState} {v : IRValue}
    {s' : CompilerState} (h : emitValue i s = some (v, s')) :
    s'.env = s.env ∧ s'.errors = s.errors := by
  unfold emitValue at h
  split at h
  · exact absurd h (by simp)
  · simp only [Option.some.injEq, Prod.mk.injEq] at h
    obtain ⟨-, h2⟩ := h
    subst h2
    exact ⟨rfl, rfl⟩

/-- The integer-pairing operator selection never touches the environment
or the error list. -/
theorem intPairingOp_env_errors {op : String} {lv rv : Option IRValue}
    {s : CompilerState} {p : Option IRValue × Option IRType}
    {s' : CompilerState} (h : intPairingOp op lv rv s = some (p, s')) :
    s'.env = s.env ∧ s'.errors = s.errors := by
  unfold intPairingOp at h
  repeat' split at h
  all_goals
    first
    | (rw [Option.map_eq_some'] at h
       obtain ⟨⟨w, s2⟩, hemit, hpair⟩ := h
       injection hpair with hp hs
       subst hs
       exact emitValue_env_errors hemit)
    | (simp only [Option.some.injEq, Prod.mk.injEq] at h
       obtain ⟨-, h2⟩ := h
       subst h2
       exact ⟨rfl, rfl⟩)
    | simp at h

/-- The float-pairing operator selection never touches the environment or
the error list. -/
theorem floatPairingOp_env_errors {op : String} {lv rv : Option IRValue}
    {s : CompilerState} {p : Option IRValue × Option IRType}
    {s' : CompilerState} (h : floatPairingOp op lv rv s = some (p, s')) :
    s'.env = s.env ∧ s'.errors = s.errors := by
  unfold floatPairingOp at h
  repeat' split at h
  all_goals
    first
    | (rw [Option.map_eq_some'] at h
       obtain ⟨⟨w, s2⟩, hemit, hpair⟩ := h
       injection hpair with hp hs
       subst hs
       exact emitValue_env_errors hemit)
    | (simp only [Option.some.injEq, Prod.mk.injEq] at h
       obtain ⟨-, h2⟩ := h
       subst h2
       exact ⟨rfl, rfl⟩)
    | simp at h

/-- The infix operator dispatch never touches the environment or the error
list. -/
theorem dispatchInfixOp_env_errors {op : String} {lv rv : Option IRValue}
    {lt rt : Option IRType} {s : CompilerState}
    {p : Option IRValue × Option IRType} {s' : CompilerState}
    (h : dispatchInfixOp op lv lt rv rt s = some (p, s')) :
    s'.env = s.env ∧ s'.errors = s.errors := by
  unfold dispatchInfixOp at h
  by_cases hI : IRType.isIntType rt = true ∧ IRType.isIntType lt = true
  · rw [if_pos hI] at h
    cases hstep : intPairingOp op lv rv s with
    | none => rw [hstep] at h; simp at h
    | some q =>
      obtain ⟨⟨v1, t1⟩, s1⟩ := q
      rw [hstep] at h
      have h1 := intPairingOp_env_errors hstep
      replace h : (if IRType.isFloatType rt = true ∧ IRType.isFloatType lt = true
          then floatPairingOp op lv rv s1
          else some ((v1, t1), s1)) = some (p, s') := h
      by_cases hF : IRType.isFloatType rt = true ∧ IRType.isFloatType lt = true
      · rw [if_pos hF] at h
        have h2 := floatPairingOp_env_errors h
        exact ⟨h2.1.trans h1.1, h2.2.trans h1.2⟩
      · rw [if_neg hF] at h
        simp only [Option.some.injEq, Prod.mk.injEq] at h
        obtain ⟨-, h2⟩ := h
        subst h2
        exact h1
  · rw [if_neg hI] at h
    replace h : (if IRType.isFloatType rt = true ∧ IRType.isFloatType lt = true
        then floatPairingOp op lv rv s
        else some ((none, none), s)) = some (p, s') := h
    by_cases hF : IRType.isFloatType rt = true ∧ IRType.isFloatType lt = true
    · rw [if_pos hF] at h
      exact floatPairingOp_env_errors h
    · rw [if_neg hF] at h
      simp only [Option.some.injEq, Prod.mk.injEq] at h
      obtain ⟨-, h2⟩ := h
      subst h2
      exact ⟨rfl, rfl⟩

/-- Auxiliary strong-induction form of `resolveValue_env_errors`. -/
theorem resolveValue_env_errors_aux :
    ∀ (n : Nat) (e : Expression) (s : CompilerState)
      (p : Option IRValue × Option IRType) (s' : CompilerState),
      sizeOf e ≤ n → resolveValue e s = some (p, s') →
      s'.env = s.env ∧ s'.errors = s.errors := by
  intro n
  induction n with
  | zero =>
    intro e s p s' hsz _
    exact absurd hsz (by cases e <;> simp)
  | succ n ih =>
    intro e s p s' hsz h
    cases e with
    | IntegerLiteral v =>
      unfold resolveValue at h
      simp only [Option.some.injEq, Prod.mk.injEq] at h
      obtain ⟨-, h2⟩ := h
      subst h2
      exact ⟨rfl, rfl⟩
    | FloatLiteral v =>
      unfold resolveValue at h
      simp only [Option.some.injEq, Prod.mk.injEq] at h
      obtain ⟨-, h2⟩ := h
      subst h2
      exact ⟨rfl, rfl⟩
    | BooleanLiteral b =>
      unfold resolveValue at h
      simp only [Option.some.injEq, Prod.mk.injEq] at h
      obtain ⟨-, h2⟩ := h
      subst h2
      exact ⟨rfl, rfl⟩
    | IdentifierLiteral name =>
      unfold resolveValue at h
      repeat' split at h
      all_goals
        first
        | (simp only [Option.some.injEq, Prod.mk.injEq] at h
           obtain ⟨-, h2⟩ := h
           subst h2
           rename_i hemit
           exact emitValue_env_errors hemit)
        | simp at h
    | CallExpression fname args =>
      unfold resolveValue at h
      repeat' split at h
      all_goals
        first
        | (simp only [Option.some.injEq, Prod.mk.injEq] at h
           obtain ⟨-, h2⟩ := h
           subst h2
           rename_i hemit
           exact emitValue_env_errors hemit)
        | simp at h
    | InfixExpression leftNode op rightNode =>
      match leftNode, rightNode with
      | none, _ =>
        unfold resolveValue at h
        simp at h
      | some l, none =>
        unfold resolveValue at h
        simp at h
      | some l, some r =>
        have hszl : sizeOf l ≤ n := by
          simp only [Expression.InfixExpression.sizeOf_spec,
            Option.some.sizeOf_spec] at hsz
          omega
        have hszr : sizeOf r ≤ n := by
          simp only [Expression.InfixExpression.sizeOf_spec,
            Option.some.sizeOf_spec] at hsz
          omega
        unfold resolveValue at h
        cases hl : resolveValue l s with
        | none =>
          simp only [hl] at h
          exact Option.noConfusion h
        | some ql =>
          obtain ⟨⟨lv, lt⟩, s1⟩ := ql
          simp only [hl] at h
          have h1 := ih l s ((lv, lt)) s1 hszl hl
          cases hr : resolveValue r s1 with
          | none =>
            simp only [hr] at h
            exact Option.noConfusion h
          | some qr =>
            obtain ⟨⟨rv, rt⟩, s2⟩ := qr
            simp only [hr] at h
            have h2 := ih r s1 ((rv, rt)) s2 hszr hr
            have h3 := dispatchInfixOp_env_errors h
            exact ⟨h3.1.trans (h2.1.trans h1.1), h3.2.trans (h2.2.trans h1.2)⟩

/-- Expression resolution never touches the environment or the error list
(it only emits instructions and advances the id counter). -/
theorem resolveValue_env_errors {e : Expression} {s : CompilerState}
    {p : Option IRValue × Option IRType} {s' : CompilerState}
    (h : resolveValue e s = some (p, s')) :
    s'.env = s.env ∧ s'.errors = s.errors :=
  resolveValue_env_errors_aux (sizeOf e) e s p s' (Nat.le_refl _) h


/-- C1: Parsing the source "1 + 2 * 3" yields an ExpressionStatement whose
expression is an InfixExpression with operator '+', whose left operand is
the integer literal 1, and whose right operand is an InfixExpression with
operator '*' over the integer literals 2 and 3 — multiplication binds
tighter than addition and nests on the right — with no parser
diagnostics. -/
theorem parse_precedence_mul_binds_tighter :
    parseSource "1 + 2 * 3" =
      some ([Statement.ExpressionStatement (some (Expression.InfixExpression
        (some (Expression.IntegerLiteral 1)) "+"
        (some (Expression.InfixExpression (some (Expression.IntegerLiteral 2)) "*"
          (some (Expression.IntegerLiteral 3))))))], []) := by
  rfl

/-- C2: Parsing the source "1 - 2 - 3" yields the left-associative nesting
((1 - 2) - 3): an outer InfixExpression with operator '-' whose left
operand is InfixExpression('-', 1, 2) and whose right operand is the
literal 3 (the expression loop consumes a next infix operator only while
the peek token's precedence strictly exceeds the threshold passed in). -/
theorem parse_minus_left_associative :
    parseSource "1 - 2 - 3" =
      some ([Statement.ExpressionStatement (some (Expression.InfixExpression
        (some (Expression.InfixExpression (some (Expression.IntegerLiteral 1)) "-"
          (some (Expression.IntegerLiteral 2)))) "-"
        (some (Expression.IntegerLiteral 3))))], []) := by
  rfl

/-- C10: After a let statement's header and initializer parse, the parser
consumes and discards every further token up to the next semicolon or
end-of-input without recording any diagnostic: `let a: int = 1 2 3;`
yields a LetStatement (initializer 1) and an empty parser error list. -/
theorem parse_let_discards_tokens_after_initializer :
    parseSource "let a: int = 1 2 3;" =
      some ([Statement.LetStatement "a" "int" (some (Expression.IntegerLiteral 1))],
        []) := by
  rfl

/-- C5 counterexample: parsing the source `if ( 1 ) { 2 }` — an if
statement of exactly the claimed form with the alternative absent —
produces no IfStatement node at all (every produced statement is an
ExpressionStatement), refuting the claim that the parser recognizes if
statements. -/
theorem parse_if_source_yields_no_if_statement :
    (parseSource "if ( 1 ) { 2 }").map
        (fun r => r.1.all (fun st => ! st.isIfStatement)) = some true := by
  rfl

/-- C5 amended: the parser does not recognize if statements: there is no
`if` token kind, `if` lexes as an ordinary identifier, and no parser path
constructs an IfStatement (IfStatement nodes exist only for the code
generator).  The source `if ( 1 ) { 2 } else { 3 }` parses as a sequence
of expression statements — the identifier `if`, the grouped condition, the
block contents and the identifier `else` — with a missing-prefix-rule
diagnostic for each brace. -/
theorem parse_if_else_source_as_expression_statements :
    parseSource "if ( 1 ) { 2 } else { 3 }" =
      some ([Statement.ExpressionStatement (some (Expression.IdentifierLiteral "if")),
             Statement.ExpressionStatement (some (Expression.IntegerLiteral 1)),
             Statement.ExpressionStatement none,
             Statement.ExpressionStatement (some (Expression.IntegerLiteral 2)),
             Statement.ExpressionStatement none,
             Statement.ExpressionStatement (some (Expression.IdentifierLiteral "else")),
             Statement.ExpressionStatement none,
             Statement.ExpressionStatement (some (Expression.IntegerLiteral 3)),
             Statement.ExpressionStatement none],
        ["No Prefix Parser Function for TokenType.LBRACE found.",
         "No Prefix Parser Function for TokenType.RBRACE found.",
         "No Prefix Parser Function for TokenType.LBRACE found.",
         "No Prefix Parser Function for TokenType.RBRACE found."]) := by
  rfl

/-- Auxiliary strong-induction form of the nearest-scope characterization
of Environment.lookup. -/
theorem environment_lookup_nearest_aux :
    ∀ (n : Nat) (e : Environment), sizeOf e ≤ n → ∀ (name : String),
      e.lookup name =
        (e.scopes.find? (fun recs => (recs.lookup name).isSome)).bind
          (fun recs => recs.lookup name) := by
  intro n
  induction n with
  | zero =>
    intro e hsz
    exact absurd hsz (by cases e <;> simp)
  | succ n ih =>
    intro e hsz name
    obtain ⟨recs, parent⟩ := e
    cases parent with
    | none =>
      show Environment.resolve (.mk recs none) name = _
      unfold Environment.resolve Environment.scopes
      cases hrec : recs.lookup name
      all_goals simp [List.find?, hrec]
    | some p =>
      have hszp : sizeOf p ≤ n := by
        simp only [Environment.mk.sizeOf_spec, Option.some.sizeOf_spec] at hsz
        omega
      show Environment.resolve (.mk recs (some p)) name = _
      unfold Environment.resolve Environment.scopes
      cases hrec : recs.lookup name with
      | some v => simp [List.find?, hrec]
      | none =>
        simp only [List.find?, hrec, Option.isSome_none, Bool.false_eq_true,
          cond_false]
        exact ih p hszp name

/-- C9: For every environment chain and every name, Environment.lookup
returns the (handle, type) pair recorded in the nearest enclosing scope
whose local map defines the name (walking parent links outward), and
returns the not-found signal None, without raising, exactly when no scope
in the chain defines it. -/
theorem environment_lookup_nearest_scope (e : Environment) (name : String) :
    e.lookup name =
      (e.scopes.find? (fun recs => (recs.lookup name).isSome)).bind
        (fun recs => recs.lookup name)
    ∧ (e.lookup name = none ↔ ∀ recs ∈ e.scopes, recs.lookup name = none) := by
  have h := environment_lookup_nearest_aux (sizeOf e) e (Nat.le_refl _) name
  refine ⟨h, ?_⟩
  rw [h]
  constructor
  · intro hnone recs hmem
    cases hfind : e.scopes.find? (fun recs => (recs.lookup name).isSome) with
    | none =>
      have h2 := List.find?_eq_none.mp hfind recs hmem
      exact Option.not_isSome_iff_eq_none.mp h2
    | some recs0 =>
      rw [hfind] at hnone
      have hp := List.find?_some hfind
      rw [Option.some_bind] at hnone
      rw [hnone] at hp
      simp at hp
  · intro hall
    cases hfind : e.scopes.find? (fun recs => (recs.lookup name).isSome) with
    | none => simp
    | some recs0 =>
      have hmem := List.mem_of_find?_eq_some hfind
      simp [hall recs0 hmem]

/-- C8: Code generation of every function statement is a strict
save/restore frame: the body is compiled in a fresh child environment
whose parent is the enclosing environment, under a fresh insertion point
(the function's new entry block), with the function's own name bound in
the child environment before the body is compiled; afterwards the
compiler's insertion point is restored to exactly its prior value and the
environment to its prior value with the function's name also bound
there. -/
theorem function_statement_frame (s s' : CompilerState)
    (name returnType : String) (body : Statement) (retTy : IRType)
    (hT : typeMap returnType = some retTy)
    (h : compileStmt (.FunctionStatement name returnType body) s = some s') :
    ∃ sBody : CompilerState,
      compileStmt body
        { s with
            module := s.module
              ++ [ModuleItem.functionDecl name retTy (name ++ "_entry")],
            builder := { block := some (name ++ "_entry") },
            env := (Environment.mk [] (some s.env)).define name
                     (IRValue.func name) retTy }
        = some sBody
      ∧ s' = { sBody with
                 env := s.env.define name (IRValue.func name) retTy,
                 builder := s.builder }
      ∧ s'.builder = s.builder
      ∧ s'.env = s.env.define name (IRValue.func name) retTy := by
  unfold compileStmt at h
  rw [hT] at h
  dsimp only at h
  cases hbody : compileStmt body
      { s with
          module := s.module
            ++ [ModuleItem.functionDecl name retTy (name ++ "_entry")],
          builder := { block := some (name ++ "_entry") },
          env := (Environment.mk [] (some s.env)).define name
                   (IRValue.func name) retTy } with
  | none =>
    rw [hbody] at h
    exact Option.noConfusion h
  | some sBody =>
    rw [hbody] at h
    dsimp only at h
    simp only [Option.some.injEq] at h
    refine ⟨sBody, rfl, h.symm, ?_, ?_⟩
    · rw [← h]
    · rw [← h]

/-- Witness for C8: the frame property evaluated on `fn f() -> int { }`
(empty body) from the initial compiler state. -/
theorem function_statement_frame_witness :
    ∃ sBody : CompilerState,
      compileStmt (.BlockStatement [])
        { newCompiler with
            module := newCompiler.module
              ++ [ModuleItem.functionDecl "f" IRType.i32 ("f" ++ "_entry")],
            builder := { block := some ("f" ++ "_entry") },
            env := (Environment.mk [] (some newCompiler.env)).define "f"
                     (IRValue.func "f") IRType.i32 }
        = some sBody
      ∧ (compileStmt (.FunctionStatement "f" "int" (.BlockStatement []))
           newCompiler).get (by rfl)
        = { sBody with
              env := newCompiler.env.define "f" (IRValue.func "f") IRType.i32,
              builder := newCompiler.builder }
      ∧ ((compileStmt (.FunctionStatement "f" "int" (.BlockStatement []))
           newCompiler).get (by rfl)).builder = newCompiler.builder
      ∧ ((compileStmt (.FunctionStatement "f" "int" (.BlockStatement []))
           newCompiler).get (by rfl)).env
        = newCompiler.env.define "f" (IRValue.func "f") IRType.i32 := by
  obtain ⟨sBody, h1, h2, h3, h4⟩ :=
    function_statement_frame newCompiler
      ((compileStmt (.FunctionStatement "f" "int" (.BlockStatement []))
          newCompiler).get (by rfl))
      "f" "int" (.BlockStatement []) IRType.i32 rfl (by rfl)
  exact ⟨sBody, h1, h2, h3, h4⟩

/-- C3: For every let statement whose initializer resolves to a value and
type: if the name is new in the current environment (lookup over the scope
chain finds nothing), a storage slot of the resolved initializer type is
allocated, the value is stored into it, and (slot, type) is registered in
the environment; if the name already exists, no new slot is allocated and
the value is stored into the previously registered handle.  In particular,
compiling `let a: int = 1;` followed by `let a: int = 2;` (inside a
function, where the builder has a block) performs exactly one allocation
for `a` and the second statement stores into the handle registered by the
first. -/
theorem let_statement_allocation (s s1 : CompilerState) (name vt : String)
    (v : Expression) (v0 : IRValue) (T : IRType) (b : String)
    (hres : resolveValue v s = some ((some v0, some T), s1))
    (hblock : s1.builder.block = some b) :
    (s.env.lookup name = none →
      visitLetStatement name vt (some v) s =
        some { s1 with
          instrs := s1.instrs ++ [(s1.nextId, b, Instr.alloca T),
            (s1.nextId + 1, b, Instr.store v0 (IRValue.instr s1.nextId))],
          nextId := s1.nextId + 2,
          env := s1.env.define name (IRValue.instr s1.nextId) T })
    ∧ (∀ (ptr : IRValue) (T0 : IRType),
        s.env.lookup name = some (ptr, T0) →
        visitLetStatement name vt (some v) s =
          some { s1 with
            instrs := s1.instrs ++ [(s1.nextId, b, Instr.store v0 ptr)],
            nextId := s1.nextId + 1 })
    ∧ ((compileProgram exampleLetRedefinition newCompiler).map
        (fun st => ((st.instrs.filter (fun e => isAlloca e.2.2)).length,
          st.instrs))
      = some (1, [(0, "main_entry", Instr.alloca IRType.i32),
          (1, "main_entry",
            Instr.store (IRValue.constInt IRType.i32 1) (IRValue.instr 0)),
          (2, "main_entry",
            Instr.store (IRValue.constInt IRType.i32 2) (IRValue.instr 0)),
          (3, "main_entry", Instr.load (IRValue.instr 0)),
          (4, "main_entry", Instr.ret (IRValue.instr 3))])) := by
  have henv := (resolveValue_env_errors hres).1
  refine ⟨?_, ?_, by rfl⟩
  · intro hnone
    have hnone1 : s1.env.lookup name = none := by rw [henv]; exact hnone
    unfold visitLetStatement
    dsimp only
    rw [hres]
    dsimp only
    rw [hnone1]
    unfold emitValue
    rw [hblock]
    dsimp only
    rw [hblock]
    dsimp only
    simp [List.append_assoc]
  · intro ptr T0 hsome
    have hsome1 : s1.env.lookup name = some (ptr, T0) := by rw [henv]; exact hsome
    unfold visitLetStatement
    dsimp only
    rw [hres]
    dsimp only
    rw [hsome1]
    unfold emitValue
    rw [hblock]

/-- Witness for C3: `let a: int = 7;` on a fresh name in a state with an
active block allocates a slot, stores into it and registers it. -/
theorem let_statement_allocation_witness :
    visitLetStatement "a" "int" (some (Expression.IntegerLiteral 7))
        activeBuilderState =
      some { activeBuilderState with
        instrs := [(0, "main_entry", Instr.alloca IRType.i32),
          (1, "main_entry",
            Instr.store (IRValue.constInt IRType.i32 7) (IRValue.instr 0))],
        nextId := 2,
        env := activeBuilderState.env.define "a" (IRValue.instr 0)
                 IRType.i32 } := by
  have h := (let_statement_allocation activeBuilderState activeBuilderState
      "a" "int" (Expression.IntegerLiteral 7)
      (IRValue.constInt IRType.i32 7) IRType.i32 "main_entry" rfl rfl).1 rfl
  exact h

/-- C7 counterexample: for the assign statement `x = 1 + 2` with `x`
undeclared, compiled from a state with an active block and an empty
instruction log, the undeclared-identifier diagnostic is recorded and the
assignment is skipped, but the IR state is NOT left unaffected: the `add`
instruction produced by resolving the right-hand side (which the source
resolves before the declaration check) has been emitted. -/
theorem assign_undeclared_emits_rhs_instructions :
    (visitAssignStatement "x" addOneTwo activeBuilderState).map
        (fun st => (st.errors, st.instrs))
      = some (["COMPILE ERROR: Identifier x has not been declared before it was re-assigned"],
          [(0, "main_entry", Instr.add (IRValue.constInt IRType.i32 1)
            (IRValue.constInt IRType.i32 2))]) := by
  rfl

/-- C7 amended: for every assign statement whose target identifier is not
declared in any enclosing environment, the code generator records the
undeclared-identifier diagnostic and emits no store; however the
right-hand expression is resolved before the check, so the resulting state
is exactly the post-resolution state (including any instructions the
resolution emitted) plus the diagnostic. -/
theorem assign_undeclared_reports_and_skips_store (s s1 : CompilerState)
    (name : String) (v : Expression) (lv : Option IRValue)
    (lt : Option IRType)
    (hres : resolveValue v s = some ((lv, lt), s1))
    (hnone : s.env.lookup name = none) :
    visitAssignStatement name v s =
      some { s1 with errors := s1.errors ++
        ["COMPILE ERROR: Identifier " ++ name
          ++ " has not been declared before it was re-assigned"] } := by
  have henv := (resolveValue_env_errors hres).1
  have hnone1 : s1.env.lookup name = none := by rw [henv]; exact hnone
  unfold visitAssignStatement
  rw [hres]
  dsimp only
  rw [hnone1]

/-- Witness for C7's amended claim: the assignment `x = 1 + 2` with `x`
undeclared, from a state with an active block. -/
theorem assign_undeclared_reports_witness :
    visitAssignStatement "x" addOneTwo activeBuilderState =
      some { activeBuilderState with
        instrs := [(0, "main_entry", Instr.add (IRValue.constInt IRType.i32 1)
          (IRValue.constInt IRType.i32 2))],
        nextId := 1,
        errors := ["COMPILE ERROR: Identifier x has not been declared before it was re-assigned"] } := by
  have h := assign_undeclared_reports_and_skips_store activeBuilderState
      { activeBuilderState with
        instrs := [(0, "main_entry", Instr.add (IRValue.constInt IRType.i32 1)
          (IRValue.constInt IRType.i32 2))],
        nextId := 1 }
      "x" addOneTwo (some (IRValue.instr 0)) (some IRType.i32) rfl rfl
  exact h

/-- C6: For every infix expression whose two operands resolve to mixed
types (one Int32 and one Float32, in either order), code generation
silently produces no value and no type — the generation routine yields
None for both components — and records no diagnostic in the compiler's
error list. -/
theorem mixed_type_pairing_silent (s s1 s2 : CompilerState) (l r : Expression)
    (op : String) (lv rv : Option IRValue) :
    (resolveValue l s = some ((lv, some IRType.i32), s1) →
     resolveValue r s1 = some ((rv, some IRType.f32), s2) →
     visitInfixExpression (some l) op (some r) s = some ((none, none), s2)
       ∧ s2.errors = s.errors)
    ∧ (resolveValue l s = some ((lv, some IRType.f32), s1) →
       resolveValue r s1 = some ((rv, some IRType.i32), s2) →
       visitInfixExpression (some l) op (some r) s = some ((none, none), s2)
         ∧ s2.errors = s.errors) := by
  constructor
  · intro hl hr
    refine ⟨?_, (resolveValue_env_errors hr).2.trans (resolveValue_env_errors hl).2⟩
    unfold visitInfixExpression
    unfold resolveValue
    rw [hl]
    dsimp only
    rw [hr]
    dsimp only
    simp [dispatchInfixOp, IRType.isIntType, IRType.isFloatType]
  · intro hl hr
    refine ⟨?_, (resolveValue_env_errors hr).2.trans (resolveValue_env_errors hl).2⟩
    unfold visitInfixExpression
    unfold resolveValue
    rw [hl]
    dsimp only
    rw [hr]
    dsimp only
    simp [dispatchInfixOp, IRType.isIntType, IRType.isFloatType]

/-- Witness for C6: `1 + 2.5` and `1.5 + 2` both generate (None, None)
with no diagnostic, from the initial compiler state. -/
theorem mixed_type_pairing_silent_witness :
    (visitInfixExpression (some (Expression.IntegerLiteral 1)) "+"
        (some (Expression.FloatLiteral 2.5)) newCompiler
      = some ((none, none), newCompiler)
      ∧ newCompiler.errors = newCompiler.errors)
    ∧ (visitInfixExpression (some (Expression.FloatLiteral 1.5)) "+"
        (some (Expression.IntegerLiteral 2)) newCompiler
      = some ((none, none), newCompiler)
      ∧ newCompiler.errors = newCompiler.errors) := by
  constructor
  · exact (mixed_type_pairing_silent newCompiler newCompiler newCompiler
      (Expression.IntegerLiteral 1) (Expression.FloatLiteral 2.5) "+"
      (some (IRValue.constInt IRType.i32 1))
      (some (IRValue.constFloat 2.5))).1 rfl rfl
  · exact (mixed_type_pairing_silent newCompiler newCompiler newCompiler
      (Expression.FloatLiteral 1.5) (Expression.IntegerLiteral 2) "+"
      (some (IRValue.constFloat 1.5))
      (some (IRValue.constInt IRType.i32 2))).2 rfl rfl

/-- C4: For every infix expression whose two operands both resolve to
Int32, code generation selects the signed-integer instruction family
(add/sub/mul/signed div/signed rem and signed comparisons) with arithmetic
result type Int32 and comparison result type Bool1; for every infix
expression whose two operands both resolve to Float32, it selects the
floating family with ordered floating comparisons, arithmetic result type
Float32 and comparison result type Bool1. -/
theorem type_pairing_dispatch :
    (∀ (s s1 s2 : CompilerState) (l r : Expression) (lv rv : IRValue),
      resolveValue l s = some ((some lv, some IRType.i32), s1) →
      resolveValue r s1 = some ((some rv, some IRType.i32), s2) →
        visitInfixExpression (some l) "+" (some r) s
          = (emitValue (Instr.add lv rv) s2).map
              (fun p => ((some p.1, some IRType.i32), p.2))
      ∧
        visitInfixExpression (some l) "-" (some r) s
          = (emitValue (Instr.sub lv rv) s2).map
              (fun p => ((some p.1, some IRType.i32), p.2))
      ∧
        visitInfixExpression (some l) "*" (some r) s
          = (emitValue (Instr.mul lv rv) s2).map
              (fun p => ((some p.1, some IRType.i32), p.2))
      ∧
        visitInfixExpression (some l) "/" (some r) s
          = (emitValue (Instr.sdiv lv rv) s2).map
              (fun p => ((some p.1, some IRType.i32), p.2))
      ∧
        visitInfixExpression (some l) "%" (some r) s
          = (emitValue (Instr.srem lv rv) s2).map
              (fun p => ((some p.1, some IRType.i32), p.2))
      ∧
        visitInfixExpression (some l) "<" (some r) s
          = (emitValue (Instr.icmpSigned "<" lv rv) s2).map
              (fun p => ((some p.1, some IRType.i1), p.2))
      ∧
        visitInfixExpression (some l) "<=" (some r) s
          = (emitValue (Instr.icmpSigned "<=" lv rv) s2).map
              (fun p => ((some p.1, some IRType.i1), p.2))
      ∧
        visitInfixExpression (some l) ">" (some r) s
          = (emitValue (Instr.icmpSigned ">" lv rv) s2).map
              (fun p => ((some p.1, some IRType.i1), p.2))
      ∧
        visitInfixExpression (some l) ">=" (some r) s
          = (emitValue (Instr.icmpSigned ">=" lv rv) s2).map
              (fun p => ((some p.1, some IRType.i1), p.2))
      ∧
        visitInfixExpression (some l) "==" (some r) s
          = (emitValue (Instr.icmpSigned "==" lv rv) s2).map
              (fun p => ((some p.1, some IRType.i1), p.2))
      ∧
        visitInfixExpression (some l) "!=" (some r) s
          = (emitValue (Instr.icmpSigned "!=" lv rv) s2).map
              (fun p => ((some p.1, some IRType.i1), p.2)))
    ∧ (∀ (s s1 s2 : CompilerState) (l r : Expression) (lv rv : IRValue),
      resolveValue l s = some ((some lv, some IRType.f32), s1) →
      resolveValue r s1 = some ((some rv, some IRType.f32), s2) →
        visitInfixExpression (some l) "+" (some r) s
          = (emitValue (Instr.fadd lv rv) s2).map
              (fun p => ((some p.1, some IRType.f32), p.2))
      ∧
        visitInfixExpression (some l) "-" (some r) s
          = (emitValue (Instr.fsub lv rv) s2).map
              (fun p => ((some p.1, some IRType.f32), p.2))
      ∧
        visitInfixExpression (some l) "*" (some r) s
          = (emitValue (Instr.fmul lv rv) s2).map
              (fun p => ((some p.1, some IRType.f32), p.2))
      ∧
        visitInfixExpression (some l) "/" (some r) s
          = (emitValue (Instr.fdiv lv rv) s2).map
              (fun p => ((some p.1, some IRType.f32), p.2))
      ∧
        visitInfixExpression (some l) "%" (some r) s
          = (emitValue (Instr.frem lv rv) s2).map
              (fun p => ((some p.1, some IRType.f32), p.2))
      ∧
        visitInfixExpression (some l) "<" (some r) s
          = (emitValue (Instr.fcmpOrdered "<" lv rv) s2).map
              (fun p => ((some p.1, some IRType.i1), p.2))
      ∧
        visitInfixExpression (some l) "<=" (some r) s
          = (emitValue (Instr.fcmpOrdered "<=" lv rv) s2).map
              (fun p => ((some p.1, some IRType.i1), p.2))
      ∧
        visitInfixExpression (some l) ">" (some r) s
          = (emitValue (Instr.fcmpOrdered ">" lv rv) s2).map
              (fun p => ((some p.1, some IRType.i1), p.2))
      ∧
        visitInfixExpression (some l) ">=" (some r) s
          = (emitValue (Instr.fcmpOrdered ">=" lv rv) s2).map
              (fun p => ((some p.1, some IRType.i1), p.2))
      ∧
        visitInfixExpression (some l) "==" (some r) s
          = (emitValue (Instr.fcmpOrdered "==" lv rv) s2).map
              (fun p => ((some p.1, some IRType.i1), p.2))
      ∧
        visitInfixExpression (some l) "!=" (some r) s
          = (emitValue (Instr.fcmpOrdered "!=" lv rv) s2).map
              (fun p => ((some p.1, some IRType.i1), p.2))) := by
  constructor
  · intro s s1 s2 l r lv rv hl hr
    refine ⟨?_, ?_, ?_, ?_, ?_, ?_, ?_, ?_, ?_, ?_, ?_⟩
    all_goals
      unfold visitInfixExpression
      unfold resolveValue
      rw [hl]
      dsimp only
      rw [hr]
      dsimp only
      cases hb : s2.builder.block with
      | none =>
        simp [dispatchInfixOp, intPairingOp, floatPairingOp, emitValue, hb,
          IRType.isIntType, IRType.isFloatType]
      | some bb =>
        simp [dispatchInfixOp, intPairingOp, floatPairingOp, emitValue, hb,
          IRType.isIntType, IRType.isFloatType]
  · intro s s1 s2 l r lv rv hl hr
    refine ⟨?_, ?_, ?_, ?_, ?_, ?_, ?_, ?_, ?_, ?_, ?_⟩
    all_goals
      unfold visitInfixExpression
      unfold resolveValue
      rw [hl]
      dsimp only
      rw [hr]
      dsimp only
      cases hb : s2.builder.block with
      | none =>
        simp [dispatchInfixOp, intPairingOp, floatPairingOp, emitValue, hb,
          IRType.isIntType, IRType.isFloatType]
      | some bb =>
        simp [dispatchInfixOp, intPairingOp, floatPairingOp, emitValue, hb,
          IRType.isIntType, IRType.isFloatType]

/-- Witness for C4: `1 + 2` (both Int32) selects the integer add with
result type Int32, and `1.5 < 2.5` (both Float32) selects the ordered
floating comparison with result type Bool1, from a state with an active
block. -/
theorem type_pairing_dispatch_witness :
    visitInfixExpression (some (Expression.IntegerLiteral 1)) "+"
        (some (Expression.IntegerLiteral 2)) activeBuilderState
      = (emitValue (Instr.add (IRValue.constInt IRType.i32 1)
          (IRValue.constInt IRType.i32 2)) activeBuilderState).map
            (fun p => ((some p.1, some IRType.i32), p.2))
    ∧ visitInfixExpression (some (Expression.FloatLiteral 1.5)) "<"
        (some (Expression.FloatLiteral 2.5)) activeBuilderState
      = (emitValue (Instr.fcmpOrdered "<" (IRValue.constFloat 1.5)
          (IRValue.constFloat 2.5)) activeBuilderState).map
            (fun p => ((some p.1, some IRType.i1), p.2)) := by
  constructor
  · exact (type_pairing_dispatch.1 activeBuilderState activeBuilderState
      activeBuilderState (Expression.IntegerLiteral 1)
      (Expression.IntegerLiteral 2) (IRValue.constInt IRType.i32 1)
      (IRValue.constInt IRType.i32 2) rfl rfl).1
  · exact (type_pairing_dispatch.2 activeBuilderState activeBuilderState
      activeBuilderState (Expression.FloatLiteral 1.5)
      (Expression.FloatLiteral 2.5) (IRValue.constFloat 1.5)
      (IRValue.constFloat 2.5) rfl rfl).2.2.2.2.2.1
